import Mathlib

/-!
Verification development for the VIP python client (`VipLauncher.py`,
`VipSession.py`).  The definitions below are a shallow embedding of the
relevant parts of the source code: paths are modelled structurally
(a POSIX path is an absolute/relative flag plus a list of segments),
the remote/local storage backends are modelled as explicit state,
and every remote call that can vary is abstracted as an oracle
parameter.  Each claim of the specification is then settled by a
theorem about these definitions.
-/

set_option autoImplicit false

namespace VIPClient

/-! ## Path model

`PathV` models `pathlib.PurePosixPath` / `pathlib.Path` objects:
an absolute flag plus the list of name segments.  `pathStr` is `str(...)`,
`parent` is `.parent`, `child` is the `/` operator with a single name.
-/

structure PathV where
  absolute : Bool
  segs : List String
deriving DecidableEq, Repr

/-- `p / name` for a single segment (`PurePath.__truediv__` with a name). -/
def PathV.child (p : PathV) (name : String) : PathV :=
  { p with segs := p.segs ++ [name] }

/-- `p / rel` for a list of segments. -/
def PathV.joinSegs (p : PathV) (rel : List String) : PathV :=
  { p with segs := p.segs ++ rel }

/-- `p / q` for a `PathV` argument: pathlib discards `p` when `q` is absolute. -/
def PathV.joinP (p q : PathV) : PathV :=
  if q.absolute then q else { p with segs := p.segs ++ q.segs }

/-- `PurePath.parent`: drops the last segment (the root is its own parent). -/
def PathV.parent (p : PathV) : PathV :=
  { p with segs := p.segs.dropLast }

/-- `str(p)` for a POSIX path: "/"-joined segments, with a leading "/" when
absolute.  (`str(PurePosixPath("/")) = "/"`, `str(PurePosixPath("a/b")) = "a/b"`.) -/
def PathV.pathStr (p : PathV) : String :=
  if p.absolute then "/" ++ String.intercalate "/" p.segs
  else String.intercalate "/" p.segs

/-- `q.relative_to(d)` (`PurePath.relative_to`): purely syntactic prefix
stripping; `None` models the `ValueError` raised when `d` is not a prefix. -/
def PathV.relTo (q d : PathV) : Option PathV :=
  if q.absolute = d.absolute ∧ d.segs.isPrefixOf q.segs then
    some { absolute := false, segs := q.segs.drop d.segs.length }
  else none

/-- One step of `.` / `..` processing used by `Path.resolve()`. -/
def normStep (acc : List String) (s : String) : List String :=
  if s = "." then acc
  else if s = ".." then acc.dropLast
  else acc ++ [s]

/-- Syntactic core of `Path.resolve()` segment normalisation. -/
def normSegs (l : List String) : List String :=
  l.foldl normStep []

/-- `Path(p).resolve()` against current working directory `cwd`
(symbolic links are not modelled; `cwd` is assumed absolute and normalised). -/
def PathV.resolve (cwd p : PathV) : PathV :=
  { absolute := true
    segs := normSegs ((if p.absolute then [] else cwd.segs) ++ p.segs) }

/-- Parsing a string into a path (`PurePosixPath(s)` / `Path(s)`):
leading "/" means absolute, empty segments are dropped. -/
def parsePath (s : String) : PathV :=
  { absolute := s.startsWith "/"
    segs := (s.splitOn "/").filter (fun t => t ≠ "") }

/-! ## Storage state

`FS` models one storage namespace (the VIP server, or the local disk) as the
set of existing directory paths and existing file paths.  `vip.exists` /
`os.path.exists` is `FS.existsP`, `vip.create_dir` / `Path.mkdir` is
`FS.createDir`, `vip.list_elements` is `FS.listNames` (names of the one-level
entries below a directory).
-/

structure FS where
  dirs : List PathV
  files : List PathV
deriving DecidableEq, Repr

def FS.existsP (fs : FS) (p : PathV) : Bool :=
  decide (p ∈ fs.dirs) || decide (p ∈ fs.files)

def FS.createDir (fs : FS) (p : PathV) : FS :=
  { fs with dirs := p :: fs.dirs }

def FS.addFile (fs : FS) (p : PathV) : FS :=
  { fs with files := p :: fs.files }

/-- The entry name of `q` when `q` lies directly below `p`, else `none`. -/
def childName (p q : PathV) : Option String :=
  if q.absolute = p.absolute ∧ q.segs.dropLast = p.segs then q.segs.getLast?
  else none

/-- A one-level listing of directory `p`: names of files and directories
directly below it (`vip.list_elements`, keeping only the entry names as in
`_upload_dir`). -/
def FS.listNames (fs : FS) (p : PathV) : List String :=
  (fs.files ++ fs.dirs).filterMap (childName p)

/-- `VipLauncher._mkdirs`: creates every missing ancestor of `p`, then `p`
itself.  Returns the new state plus a flag telling whether anything was
created (the Python function returns the created relative path, which is
truthy exactly when a directory was created). -/
def FS.mkdirs (fs : FS) (p : PathV) : FS × Bool :=
  if fs.existsP p then (fs, false)
  else
    match h : p.segs with
    | [] => (fs.createDir p, true)
    | _ :: _ =>
      let fs1 := (fs.mkdirs p.parent).1
      (fs1.createDir p, true)
termination_by p.segs.length
decreasing_by
  simp only [PathV.parent, h, List.length_dropLast, List.length_cons]
  omega

/-! ## Workflow records

`Wf` is one entry of the workflow inventory `self._workflows`: the dictionary
returned by `VipLauncher._get_exec_infos` (`status`, `start`, `outputs`).
The inventory itself is a Python dict, modelled as an insertion-ordered
association list.
-/

structure OutFile where
  path : PathV
  isDirectory : Bool
  size : Option Nat
  mimeType : String
deriving DecidableEq, Repr

structure Wf where
  status : String
  start : String
  outputs : List OutFile
deriving DecidableEq, Repr

abbrev Registry := List (String × Wf)

/-- First-match lookup in an association list (Python `d[k]` on dicts with
unique keys). -/
def lookupA {α : Type} : List (String × α) → String → Option α
  | [], _ => none
  | (k, v) :: rest, key => if k = key then some v else lookupA rest key

/-- `d[k] = v` on a dict: replaces the value at the first occurrence of the
key, or appends a fresh key at the end (Python dicts keep insertion order). -/
def insertA {α : Type} : List (String × α) → String → α → List (String × α)
  | [], key, v => [(key, v)]
  | (k, w) :: rest, key, v =>
    if k = key then (k, v) :: rest else (k, w) :: insertA rest key v

/-! ## Claim C4: `VipLauncher._delete_and_check`

The polling loop of `_delete_and_check`, with the environment abstracted as
`existsAt : Nat → Bool` (whether the deleted path still exists at `t` seconds
after the loop started; each `time.sleep(2)` advances `t` by 2).
-/

/-- The `while (t < timeout) and cls._exists(path, location)` loop: returns
the final value of `t`. -/
def deleteCheckLoop (existsAt : Nat → Bool) (tmo t : Nat) : Nat :=
  if t < tmo ∧ existsAt t then deleteCheckLoop existsAt tmo (t + 2) else t
termination_by tmo - t

/-- `VipLauncher._delete_and_check`: deletes the path (modelled by the
`deleteOk` flag of `vip.delete_path`; `False` makes `_delete_path` raise),
then polls existence.  NOTE: faithful to the source, line 737 overwrites the
`timeout` parameter with the hard-coded value 300 before the loop runs. -/
def delete_and_check (deleteOk : Bool) (existsAt : Nat → Bool) (timeout : Nat)
    : Except String Bool :=
  if ¬ deleteOk then .error "could not be removed from VIP servers"
  else
    -- `timeout = 300  # max time in seconds` (VipLauncher.py:737)
    let tmo := 300
    let t := deleteCheckLoop existsAt tmo 0
    .ok (decide (t < tmo))

/-- The behaviour the claim describes (the `timeout` parameter is honoured):
used to exhibit the divergence at the failing input. -/
def delete_and_check_spec (deleteOk : Bool) (existsAt : Nat → Bool)
    (timeout : Nat) : Except String Bool :=
  if ¬ deleteOk then .error "could not be removed from VIP servers"
  else
    let t := deleteCheckLoop existsAt timeout 0
    .ok (decide (t < timeout))

/-! ## Claim C10: `VipLauncher._execution_report`

`_execution_report` sorts the workflow inventory by status: for each
workflow, its id is appended to the list held by its status key (a fresh
key is created on first encounter).  Python dicts are modelled as
insertion-ordered association lists; `reportAdd` is the
`if status in report: report[status].append(wid) else: report[status] = [wid]`
step.
-/

def reportAdd : List (String × List String) → String → String → List (String × List String)
  | [], st, wid => [(st, [wid])]
  | (k, l) :: rest, st, wid =>
    if k = st then (k, l ++ [wid]) :: rest else (k, l) :: reportAdd rest st wid

/-- `VipLauncher._execution_report` (the report construction; the `verbose`
display is output only). -/
def execution_report (wfs : Registry) : List (String × List String) :=
  wfs.foldl (fun rep kv => reportAdd rep kv.2.status kv.1) []

/-- All workflow ids appearing in a report, in bucket order. -/
def reportIds (rep : List (String × List String)) : List String :=
  (rep.map Prod.snd).flatten

/-- A concrete workflow record used by witnesses. -/
def demoWfFin : Wf := { status := "Finished", start := "2024/01/01 10:00:00", outputs := [] }

def demoWfRun : Wf := { status := "Running", start := "2024/01/01 10:05:00", outputs := [] }

/-- A concrete three-workflow inventory used by witnesses. -/
def demoReg : Registry := [("wf-1", demoWfFin), ("wf-2", demoWfRun), ("wf-3", demoWfFin)]

/-! ## Claim C7: Removed status is absorbing

`VipLauncher._update_workflows` refreshes every workflow whose status is not
"Removed" from the remote execution info (modelled by the oracle `infoOr`);
entries whose status is "Removed" are skipped.  `monitor_workflows` only
applies `_update_workflows` rounds to the inventory.  The final loop of
`VipLauncher.finish` sets a workflow's status to "Removed" when its output
list is empty or the parent directory of its first output no longer exists
(`existsOr`), and leaves it untouched otherwise.
-/

/-- `VipLauncher._update_workflows` (the merge `self._workflows[wid].update(...)`
replaces all three keys returned by `_get_exec_infos`). -/
def update_workflows (infoOr : String → Wf) (wfs : Registry) : Registry :=
  wfs.map (fun kv => if kv.2.status = "Removed" then kv else (kv.1, infoOr kv.1))

/-- The registry effect of `monitor_workflows`: one `_update_workflows` round
per polling iteration (the oracle may differ between rounds). -/
def monitor_rounds (rounds : List (String → Wf)) (wfs : Registry) : Registry :=
  rounds.foldl (fun acc o => update_workflows o acc) wfs

/-- One iteration of the `Updating workflows status` loop of
`VipLauncher.finish` (VipLauncher.py:590-604): a workflow becomes "Removed"
when its output list is empty or the parent directory of its first output no
longer exists on VIP. -/
def finishEntry (existsOr : PathV → Bool) (kv : String × Wf) : String × Wf :=
  match kv.2.outputs with
  | [] => (kv.1, { kv.2 with status := "Removed" })
  | o :: _ =>
    if existsOr o.path.parent then kv
    else (kv.1, { kv.2 with status := "Removed" })

/-- The `Updating workflows status` loop of `VipLauncher.finish`
(VipLauncher.py:590-604). -/
def finish_mark_removed (existsOr : PathV → Bool) (wfs : Registry) : Registry :=
  wfs.map (finishEntry existsOr)

/-- A concrete Removed workflow record used by witnesses. -/
def demoWfRem : Wf :=
  { status := "Removed", start := "2024/01/01 09:00:00"
    outputs := [{ path := { absolute := true, segs := ["vip", "Home", "API", "s", "OUTPUTS", "f.txt"] }
                  isDirectory := false, size := some 12, mimeType := "text/plain" }] }

def demoRegRem : Registry := [("wf-0", demoWfRem), ("wf-1", demoWfRun)]

/-! ## Input settings values

Values of the `input_settings` dictionary: strings, path objects
(`os.PathLike`, stored by the client as `pathlib` objects after parsing) and
arbitrarily nested lists of both.  Any other type makes the client raise
`TypeError`, so it is excluded from the embedding's value domain.
-/

mutual
inductive IVal where
  | str (s : String) : IVal
  | path (p : PathV) : IVal
  | list (l : IList) : IVal
inductive IList where
  | nil : IList
  | cons (v : IVal) (rest : IList) : IList
end

deriving instance DecidableEq for IVal
deriving instance DecidableEq for IList

/-! ## Claim C8: write-once-per-value properties

The property setters of `VipLauncher` (session_name, pipeline_id,
vip_output_dir, input_settings, workflows).  Each setter is modelled as a
state-passing function returning the (possibly unchanged) session plus an
optional error: `some (conflict _)` / `some (validation _)` model the
`ValueError` raises, which happen before any assignment, so the session is
returned unchanged in those cases.
-/

inductive VipError where
  | conflict (msg : String) : VipError
  | validation (msg : String) : VipError
deriving DecidableEq, Repr

/-- The session properties of `VipLauncher`.  `none` models an attribute that
`_is_defined` reports as unset.  `vip_output_dir` stores the string form of
the `PurePosixPath` object (the property getter applies `str(...)`). -/
structure LSession where
  session_name : Option String
  pipeline_id : Option String
  vip_output_dir : Option String
  input_settings : Option (List (String × IVal))
  workflows : Option Registry
deriving DecidableEq

/-- `VipLauncher._check_session_name`: only alphanumeric characters and
`"_- "` are allowed. -/
def check_session_name (name : String) : Bool :=
  name.data.all (fun c => c.isAlphanum || c == '_' || c == '-' || c == ' ')

/-- `str(PurePosixPath(s))`: the normalisation applied by the
`vip_output_dir` setter when it stores its argument. -/
def normalizePathStr (s : String) : String :=
  (parsePath s).pathStr

/-- Python `dict.__eq__`: same keys with the same values, regardless of
insertion order (association lists with unique keys). -/
def dictEqA {α : Type} [DecidableEq α] (a b : List (String × α)) : Bool :=
  a.all (fun kv => decide (lookupA b kv.1 = some kv.2)) &&
  b.all (fun kv => decide (lookupA a kv.1 = some kv.2))

/-- `VipLauncher.session_name` setter (VipLauncher.py:56-67). -/
def setSessionName (s : LSession) (name : String) : LSession × Option VipError :=
  match s.session_name with
  | some old =>
    if name ≠ old then (s, some (.conflict "Session name is already set"))
    else if ¬ check_session_name name then
      (s, some (.validation "Session name must contain only alphanumeric characters, spaces and hyphens"))
    else ({ s with session_name := some name }, none)
  | none =>
    if ¬ check_session_name name then
      (s, some (.validation "Session name must contain only alphanumeric characters, spaces and hyphens"))
    else ({ s with session_name := some name }, none)

/-- `VipLauncher.pipeline_id` setter (VipLauncher.py:80-91);
`_check_pipeline_id` only validates when `init()` has filled `_PIPELINES`. -/
def setPipelineId (pipelines : List String) (s : LSession) (pId : String) :
    LSession × Option VipError :=
  match s.pipeline_id with
  | some old =>
    if pId ≠ old then (s, some (.conflict "Pipeline identifier is already set"))
    else if pipelines ≠ [] ∧ pId ∉ pipelines then
      (s, some (.validation "not a valid pipeline identifier"))
    else ({ s with pipeline_id := some pId }, none)
  | none =>
    if pipelines ≠ [] ∧ pId ∉ pipelines then
      (s, some (.validation "not a valid pipeline identifier"))
    else ({ s with pipeline_id := some pId }, none)

/-- `VipLauncher.vip_output_dir` setter (VipLauncher.py:144-153): conflict
check against the string form of the stored path, then storage as a
`PurePosixPath`. -/
def setVipOutputDir (s : LSession) (newDir : String) : LSession × Option VipError :=
  match s.vip_output_dir with
  | some old =>
    if newDir ≠ old then (s, some (.conflict "Results directory is already set"))
    else ({ s with vip_output_dir := some (normalizePathStr newDir) }, none)
  | none => ({ s with vip_output_dir := some (normalizePathStr newDir) }, none)

/-- `VipLauncher.input_settings` setter (VipLauncher.py:122-131). -/
def setInputSettings (s : LSession) (new : List (String × IVal)) :
    LSession × Option VipError :=
  match s.input_settings with
  | some old =>
    if ¬ dictEqA new old then (s, some (.conflict "Input settings are already set"))
    else ({ s with input_settings := some new }, none)
  | none => ({ s with input_settings := some new }, none)

/-- `VipLauncher.workflows` setter (VipLauncher.py:182-191). -/
def setWorkflows (s : LSession) (new : Registry) : LSession × Option VipError :=
  match s.workflows with
  | some old =>
    if ¬ dictEqA new old then (s, some (.conflict "Workflows inventory is already set"))
    else ({ s with workflows := some new }, none)
  | none => ({ s with workflows := some new }, none)

/-- A fully defined session used by witnesses. -/
def demoSession : LSession :=
  { session_name := some "demo-1"
    pipeline_id := some "app/0.1"
    vip_output_dir := some "/vip/Home/API/demo-1/OUTPUTS"
    input_settings := some []
    workflows := some [] }

/-! ## Claim C6: the launch loop of `VipLauncher.launch_pipeline`

The `for nEx in range(nb_runs)` loop (VipLauncher.py:462-484): each
iteration calls `_init_exec` (oracle `initOr`, indexed by the iteration
number; `none` models a `RuntimeError`, which `_handle_vip_error` re-raises
and thereby aborts the loop), then `_get_exec_infos` (oracle `infoOr`,
`none` models the same failure path), then creates or updates the workflow
entry in `self._workflows`.  The exception propagates, so the registry keeps
the state accumulated up to the failing iteration.
-/

/-- The launch loop: returns the final registry, the number of `_init_exec`
calls issued, and whether a remote error aborted the loop. -/
def launch_exec_loop (initOr : Nat → Option String) (infoOr : String → Option Wf) :
    Nat → Nat → Registry → Registry × Nat × Bool
  | _, 0, wfs => (wfs, 0, false)
  | i, n + 1, wfs =>
    match initOr i with
    | none => (wfs, 1, true)
    | some wid =>
      match infoOr wid with
      | none => (wfs, 1, true)
      | some inf =>
        let r := launch_exec_loop initOr infoOr (i + 1) n (insertA wfs wid inf)
        (r.1, r.2.1 + 1, r.2.2)

/-- The registry produced by `k` successful launch iterations starting at
iteration `i` (used to state that partial success is kept as-is). -/
def applyRuns (initOr : Nat → Option String) (infoOr : String → Option Wf) :
    Nat → Nat → Registry → Registry
  | _, 0, wfs => wfs
  | i, k + 1, wfs =>
    match initOr i with
    | none => applyRuns initOr infoOr (i + 1) k wfs
    | some wid =>
      match infoOr wid with
      | none => applyRuns initOr infoOr (i + 1) k wfs
      | some inf => applyRuns initOr infoOr (i + 1) k (insertA wfs wid inf)

/-- A concrete `_init_exec` oracle that succeeds twice then fails. -/
def demoInitOr (i : Nat) : Option String :=
  if i = 0 then some "wf-0" else if i = 1 then some "wf-1" else none

def demoInfoOr (_ : String) : Option Wf := some demoWfRun

/-! ## Claim C3: `VipSession._parse_input_settings` / `_get_input_settings`

`_parse_input_settings` relativises every path-valued entry against its
input directory (the VIP input directory for values whose string form starts
with the server prefix, the resolved local input directory otherwise);
`_get_input_settings` materialises the stored relative paths against the
requested target root.

The server prefix constant is `self._SERVER_PATH_PREFIX`.  Modelled from the
spec: `_SERVER_PATH_PREFIX` is referenced by `_parse_input_settings`
(VipSession.py:1030) but its definition is not part of the two source files;
per the spec it is "the configured remote-namespace prefix", modelled here
as an arbitrary string parameter `pfx`, and the `str(input).startswith(...)`
test as `String.isPrefixOf`.
-/

/-- `str(input).startswith(prefix)`: the prefix test of
`_parse_input_settings`, modelled over the character lists so that it is
kernel-computable. -/
def strStartsWith (p s : String) : Bool :=
  p.data.isPrefixOf s.data

/-- The scalar branch of `parse_value` inside `_parse_input_settings`:
`orig` is the original value (returned unchanged when no relative part can
be found or the relevant input directory is unset), `sform` is `str(input)`
and `pform` the `pathlib` object built from it. -/
def parseScalarCore (pfx : String) (vipDir localDir : Option PathV) (cwd : PathV)
    (orig : IVal) (sform : String) (pform : PathV) : IVal :=
  if strStartsWith pfx sform then
    match vipDir with
    | some d =>
      match pform.relTo d with
      | some r => .path r
      | none => orig
    | none => orig
  else
    match localDir with
    | some d =>
      match (cwd.resolve pform).relTo (cwd.resolve d) with
      | some r => .path r
      | none => orig
    | none => orig

mutual
/-- `parse_value` inside `VipSession._parse_input_settings`
(VipSession.py:1019-1054). -/
def parseValue (pfx : String) (vipDir localDir : Option PathV) (cwd : PathV) :
    IVal → IVal
  | .str s => parseScalarCore pfx vipDir localDir cwd (.str s) s (parsePath s)
  | .path p => parseScalarCore pfx vipDir localDir cwd (.path p) p.pathStr p
  | .list l => .list (parseList pfx vipDir localDir cwd l)
def parseList (pfx : String) (vipDir localDir : Option PathV) (cwd : PathV) :
    IList → IList
  | .nil => .nil
  | .cons v rest =>
    .cons (parseValue pfx vipDir localDir cwd v) (parseList pfx vipDir localDir cwd rest)
end

/-- `VipSession._parse_input_settings` (VipSession.py:1007-1061). -/
def parse_input_settings (pfx : String) (vipDir localDir : Option PathV)
    (cwd : PathV) (settings : List (String × IVal)) : List (String × IVal) :=
  settings.map (fun kv => (kv.1, parseValue pfx vipDir localDir cwd kv.2))

mutual
/-- `get_input` inside `VipSession._get_input_settings`
(VipSession.py:1073-1093). -/
def getInput (vipDir localDir : Option PathV) (target : String) : IVal → IVal
  | .str s => .str s
  | .path p =>
    if target = "vip" then
      match vipDir with
      | some d => .str (d.joinP p).pathStr
      | none => .str p.pathStr
    else if target = "local" then
      match localDir with
      | some d => .str (d.joinP p).pathStr
      | none => .str p.pathStr
    else .str p.pathStr
  | .list l => .list (getInputList vipDir localDir target l)
def getInputList (vipDir localDir : Option PathV) (target : String) :
    IList → IList
  | .nil => .nil
  | .cons v rest =>
    .cons (getInput vipDir localDir target v) (getInputList vipDir localDir target rest)
end

/-- `VipSession._get_input_settings` (VipSession.py:1064-1103). -/
def get_input_settings (vipDir localDir : Option PathV) (target : String)
    (settings : List (String × IVal)) : Except String (List (String × IVal)) :=
  if target ≠ "vip" ∧ target ≠ "local" then .error ("Unknown target: " ++ target)
  else .ok (settings.map (fun kv => (kv.1, getInput vipDir localDir target kv.2)))

/-! ## Claim C2: `VipSession._upload_dir`

The local directory tree is a rose tree (`LTree`): the files directly in the
directory plus the named subdirectories (`local_path.iterdir()` split into
files and directories).  The remote side is an `FS` state; `vip.upload` is
abstracted as the oracle `ok : PathV → Bool` (a successful upload creates
the remote file).  `_upload_dir` returns the list of local files that failed
to upload; the embedding additionally returns the number of `_upload_file`
calls so that "zero file uploads" can be stated.
-/

mutual
inductive LTree where
  | node (files : List String) (subs : LForest) : LTree
inductive LForest where
  | nil : LForest
  | cons (name : String) (t : LTree) (rest : LForest) : LForest
end

/-- The upload loop over `files_to_upload` inside `_upload_dir`: uploads each
file to `vip_path / name`, recording failures (as the local file path, like
`failures.append(str(local_file))`) without aborting the batch. -/
def uploadFiles (ok : PathV → Bool) (fs : FS) (localPath vipPath : PathV) :
    List String → FS × List PathV × Nat
  | [] => (fs, [], 0)
  | f :: rest =>
    let vipFile := vipPath.child f
    if ok vipFile then
      let r := uploadFiles ok (fs.addFile vipFile) localPath vipPath rest
      (r.1, r.2.1, r.2.2 + 1)
    else
      let r := uploadFiles ok fs localPath vipPath rest
      (r.1, localPath.child f :: r.2.1, r.2.2 + 1)

mutual
/-- `VipSession._upload_dir` (VipSession.py:799-869). -/
def upload_dir (ok : PathV → Bool) (fs : FS) (localPath : PathV) (t : LTree)
    (vipPath : PathV) : FS × List PathV × Nat :=
  match t with
  | .node files subs =>
    let md := fs.mkdirs vipPath
    let toUpload :=
      if md.2 then
        -- the distant directory did not exist: upload all files, no scan
        files
      else
        -- the distant directory exists: upload the files absent from the listing
        let vipFilenames := md.1.listNames vipPath
        files.filter (fun f => decide (f ∉ vipFilenames))
    let up := uploadFiles ok md.1 localPath vipPath toUpload
    let rec1 := uploadForest ok up.1 localPath subs vipPath
    (rec1.1, up.2.1 ++ rec1.2.1, up.2.2 + rec1.2.2)
def uploadForest (ok : PathV → Bool) (fs : FS) (localPath : PathV)
    (subs : LForest) (vipPath : PathV) : FS × List PathV × Nat :=
  match subs with
  | .nil => (fs, [], 0)
  | .cons name t rest =>
    let r1 := upload_dir ok fs (localPath.child name) t (vipPath.child name)
    let r2 := uploadForest ok r1.1 localPath rest vipPath
    (r2.1, r1.2.1 ++ r2.2.1, r1.2.2 + r2.2.2)
end

/-- `fs` grows into `fs'`: every directory and file of `fs` is still there. -/
def FSLE (fs fs' : FS) : Prop :=
  (∀ p, p ∈ fs.dirs → p ∈ fs'.dirs) ∧ (∀ p, p ∈ fs.files → p ∈ fs'.files)

mutual
/-- The remote mirror is up to date for the tree `t` at `vipPath`: the
directory exists and each local file name appears in its one-level remote
listing (either as the uploaded file or as a same-named remote entry, which
is exactly what the scan of `_upload_dir` checks), recursively. -/
def SyncedT (fs : FS) (t : LTree) (vipPath : PathV) : Prop :=
  match t with
  | .node files subs =>
    fs.existsP vipPath = true
    ∧ (∀ f ∈ files, f ∈ fs.listNames vipPath)
    ∧ SyncedF fs subs vipPath
def SyncedF (fs : FS) (subs : LForest) (vipPath : PathV) : Prop :=
  match subs with
  | .nil => True
  | .cons name t rest => SyncedT fs t (vipPath.child name) ∧ SyncedF fs rest vipPath
end

/-- A concrete local tree used by witnesses:
`{a.txt, b.txt, sub/{c.txt}}`. -/
def demoTree : LTree :=
  .node ["a.txt", "b.txt"] (.cons "sub" (.node ["c.txt"] .nil) .nil)

/-- Concrete paths used by witnesses. -/
def demoVipIn : PathV := { absolute := true, segs := ["vip", "Home", "API", "demo-1", "INPUTS"] }

def demoLocalIn : PathV := { absolute := false, segs := ["data"] }

def demoCwd : PathV := { absolute := true, segs := ["home", "user"] }

/-! ## Claim C5: `VipSession.download_outputs`

`download_outputs(get_status, unzip)` (VipSession.py:447-597) with the
backend abstracted: `infoOr` refreshes workflow infos (`_update_workflows`;
`save_session=False` skips the broken `_save_session` call, so the refresh
itself succeeds).  The embedding records the list of VIP paths passed to
`_download_file` (the file-download backend operation) and returns the
failure list, or the exception that aborted the call.

Control flow past the workflow refresh: line 474 reads
`report = self._execution_report(display=False)`, but `_execution_report`
(VipLauncher.py:832, not overridden by VipSession) accepts only `verbose`.
Python therefore raises `TypeError` at that call whenever the method gets
past the empty-inventory early return, so everything from line 474 on —
including the `assert 'Removed' not in get_status` on line 477, the
Removed-browsing report loop and the download loops — is unreachable, and
the embedding faithfully ends in that `TypeError`.
-/

/-- The result of `download_outputs`: the VIP paths passed to
`_download_file`, the failure list (or the raised exception), and the
refreshed registry. -/
structure DLResult where
  trace : List PathV
  outcome : Except String (List String)
  wfs : Registry

/-- `VipSession.download_outputs` (VipSession.py:447-597). -/
def download_outputs (infoOr : String → Wf) (existsLoc dlOk : PathV → Bool)
    (localOut vipOut : PathV) (wfs : Registry) (getStatus : List String) :
    DLResult :=
  -- `if not self._workflows: return self`
  if wfs = [] then ⟨[], .ok [], wfs⟩
  else
    -- `self._update_workflows(save_session=False)`
    let wfs1 := update_workflows infoOr wfs
    -- `report = self._execution_report(display=False)` (line 474):
    -- `_execution_report(self, verbose=True)` has no `display` parameter,
    -- so this call raises before the line-477 assertion or any download;
    -- `existsLoc`, `dlOk`, the roots and `getStatus` are never consulted
    ⟨[], .error "TypeError: unexpected keyword argument display", wfs1⟩

/-! ## Claim C9: `VipSession._extract_tarball`

`_extract_tarball` (VipSession.py:900-926) on the local filesystem state:
`os.rename` follows POSIX `rename(2)` (renaming a regular file onto an
existing directory fails with `EISDIR`; only regular-file sources occur in
this function), `os.remove` deletes a file, extraction is abstracted by the
success flag `extractOk` and the list of entries written below the target
directory before the outcome is known.
-/

/-- `os.rename(src, dst)` for a regular file `src` (the only case
`_extract_tarball` exercises): replaces `dst` atomically when `dst` is a
file or absent, raises `IsADirectoryError` when `dst` is a directory. -/
def osRename (fs : FS) (src dst : PathV) : Except String FS :=
  if src ∈ fs.files then
    if dst ∈ fs.dirs then .error "IsADirectoryError"
    else .ok { dirs := fs.dirs, files := dst :: ((fs.files.erase src).erase dst) }
  else .error "FileNotFoundError"

/-- `os.remove(p)`. -/
def osRemove (fs : FS) (p : PathV) : FS :=
  { fs with files := fs.files.erase p }

/-- `VipSession._extract_tarball` (VipSession.py:900-926).  Returns the
final local state, the exception escaping the function (if any; the
`try/except` only guards the extraction itself), and the success flag. -/
def extract_tarball (extractOk : Bool) (entries : List (List String)) (fs : FS)
    (localFile : PathV) : FS × Option String × Bool :=
  -- `archive = local_file.parent / "tmp.tgz"; os.rename(local_file, archive)`
  let archive := localFile.parent.child "tmp.tgz"
  match osRename fs localFile archive with
  | .error e => (fs, some e, false)
  | .ok fs1 =>
    -- `cls._mkdirs(local_file, location="local")`
    let fs2 := (fs1.mkdirs localFile).1
    -- `tgz.extractall(path=local_file)` writes `entries` below `local_file`
    let fs3 := entries.foldl (fun acc rel => acc.addFile (localFile.joinSegs rel)) fs2
    if extractOk then
      -- `os.remove(archive)`
      (osRemove fs3 archive, none, true)
    else
      -- `os.rename(archive, local_file)`: `local_file` is now a directory
      match osRename fs3 archive localFile with
      | .error e => (fs3, some e, false)
      | .ok fs4 => (fs4, none, false)

/-- Local state for the C9 evaluation: directory `/out` holding the
downloaded archive `/out/res.tgz`. -/
def demoFsTar : FS :=
  { dirs := [{ absolute := true, segs := [] }, { absolute := true, segs := ["out"] }]
    files := [{ absolute := true, segs := ["out", "res.tgz"] }] }

def demoTarFile : PathV := { absolute := true, segs := ["out", "res.tgz"] }

def demoTmpFile : PathV := { absolute := true, segs := ["out", "tmp.tgz"] }

/-- The local state right after `_extract_tarball` renamed the archive to
`tmp.tgz`. -/
def demoFsA : FS :=
  { dirs := [{ absolute := true, segs := [] }, { absolute := true, segs := ["out"] }]
    files := [demoTmpFile] }

/-! ## Claim C1: session persistence

`VipSession._save_session` / `_load_session` (VipSession.py:934-980) and the
resume logic of `VipSession.__init__` (VipSession.py:200-265).  The session
file name `self._SAVE_FILE` is referenced but defined outside the two source
files; modelled from the spec: the persisted session file is
`session_data.json` under the local output directory.  Likewise the caller
that builds the property snapshot passed to `_save_session` is absent from
the sources (every call site invokes `_save_session()` with no argument);
per the spec the snapshot is the full property set of §3, modelled as
`SessionData`.  The file store maps file paths to the JSON documents
they hold.
-/

structure SessionData where
  session_name : Option String
  pipeline_id : Option String
  local_input_dir : Option PathV
  local_output_dir : Option PathV
  vip_input_dir : Option PathV
  vip_output_dir : Option PathV
  input_settings : Option (List (String × IVal))
  workflows : Option Registry
deriving DecidableEq

abbrev FileStore := List (PathV × SessionData)

def lookupFS : FileStore → PathV → Option SessionData
  | [], _ => none
  | (p, d) :: rest, q => if p = q then some d else lookupFS rest q

def insertFS : FileStore → PathV → SessionData → FileStore
  | [], q, d => [(q, d)]
  | (p, e) :: rest, q, d =>
    if p = q then (p, d) :: rest else (p, e) :: insertFS rest q d

/-- Modelled from the spec: `_SAVE_FILE`, the fixed session file name
(`session_data.json`), defined outside the provided sources. -/
def SAVE_FILE : String := "session_data.json"

/-- `VipSession._save_session` (VipSession.py:934-955): writes the property
snapshot as one JSON document at `<local_output_dir>/session_data.json`;
returns `False` without writing when the local output directory is unset. -/
def save_session (store : FileStore) (localOutputDir : Option PathV)
    (data : SessionData) : FileStore × Bool :=
  match localOutputDir with
  | none => (store, false)
  | some d => (insertFS store (d.child SAVE_FILE) data, true)

/-- `VipSession._load_session` (VipSession.py:958-980): reads the session
file and overrides its `local_output_dir` entry with the directory the file
was found in. -/
def load_session (store : FileStore) (localOutputDir : Option PathV) :
    Option SessionData :=
  match localOutputDir with
  | none => none
  | some d =>
    match lookupFS store (d.child SAVE_FILE) with
    | none => none
    | some data => some { data with local_output_dir := some d }

/-- `VipSession._LOCAL_DEFAULT_PATH = Path("./vip_outputs")`. -/
def LOCAL_DEFAULT : PathV := { absolute := false, segs := ["vip_outputs"] }

/-- `VipSession._SERVER_DEFAULT_PATH = PurePosixPath("/vip/Home/API/")`. -/
def SERVER_DEFAULT : PathV := { absolute := true, segs := ["vip", "Home", "API"] }

/-- `VipSession.__init__` (VipSession.py:200-265), data part: assigns the
constructor arguments through the fresh-session setters, computes the local
output directory, then calls `_load_session`.  Faithful to the source, the
returned dictionary is only tested for truthiness (`if not
self._load_session(...)`): when a session file is found, the constructor
merely skips assigning the default VIP directories and the input directory –
it never copies the loaded properties into the session.  (The re-parse of
`input_settings` triggered by a `local_input_dir` assignment is modelled by
`parse_input_settings` and not exercised here.) -/
def vip_session_init (store : FileStore) (sessionName : String)
    (inputDir : Option PathV) (pipelineId : Option String)
    (inputSettings : Option (List (String × IVal))) (outputDir : Option PathV) :
    SessionData :=
  let s0 : SessionData :=
    { session_name := some sessionName
      pipeline_id := pipelineId
      local_input_dir := none
      local_output_dir := none
      vip_input_dir := none
      vip_output_dir := none
      input_settings := inputSettings
      workflows := some [] }
  let outDir :=
    match outputDir with
    | some d => d
    | none => LOCAL_DEFAULT.child sessionName
  let s1 := { s0 with local_output_dir := some outDir }
  match load_session store (some outDir) with
  | some _ => s1
  | none =>
    let s2 := { s1 with
      vip_input_dir := some ((SERVER_DEFAULT.child sessionName).child "INPUTS")
      vip_output_dir := some ((SERVER_DEFAULT.child sessionName).child "OUTPUTS") }
    match inputDir with
    | some d => { s2 with local_input_dir := some d }
    | none => s2

def demoOutDirC1 : PathV := { absolute := false, segs := ["vip_outputs", "test"] }

/-- A fully defined saved session for the C1 evaluation. -/
def demoSaved : SessionData :=
  { session_name := some "test"
    pipeline_id := some "demo/0.1"
    local_input_dir := some { absolute := false, segs := ["data"] }
    local_output_dir := some demoOutDirC1
    vip_input_dir := some ((SERVER_DEFAULT.child "test").child "INPUTS")
    vip_output_dir := some ((SERVER_DEFAULT.child "test").child "OUTPUTS")
    input_settings := some []
    workflows := some [("wf-0", { status := "Finished", start := "2024/01/01 10:00:00", outputs := [] })] }

/-! # Theorems -/

theorem lookupA_cons {α : Type} (k : String) (v : α) (rest : List (String × α))
    (key : String) :
    lookupA ((k, v) :: rest) key = if k = key then some v else lookupA rest key := rfl

theorem reportIds_nil : reportIds [] = [] := rfl

theorem reportIds_cons (k : String) (l : List String)
    (rest : List (String × List String)) :
    reportIds ((k, l) :: rest) = l ++ reportIds rest := by
  simp [reportIds]

theorem reportAdd_cons_eq (k st wid : String) (l : List String)
    (rest : List (String × List String)) (hk : k = st) :
    reportAdd ((k, l) :: rest) st wid = (k, l ++ [wid]) :: rest := by
  simp [reportAdd, hk]

theorem reportAdd_cons_ne (k st wid : String) (l : List String)
    (rest : List (String × List String)) (hk : ¬ k = st) :
    reportAdd ((k, l) :: rest) st wid = (k, l) :: reportAdd rest st wid := by
  simp [reportAdd, hk]

theorem count_reportIds_reportAdd (rep : List (String × List String))
    (st wid x : String) :
    (reportIds (reportAdd rep st wid)).count x =
      (reportIds rep).count x + if wid = x then 1 else 0 := by
  induction rep with
  | nil =>
    by_cases hx : wid = x <;>
      simp [reportAdd, reportIds, List.count_cons, hx]
  | cons kv rest ih =>
    obtain ⟨k, l⟩ := kv
    by_cases hk : k = st
    · rw [reportAdd_cons_eq k st wid l rest hk, reportIds_cons, reportIds_cons]
      by_cases hx : wid = x <;>
        simp [List.count_append, List.count_cons, hx] <;> omega
    · rw [reportAdd_cons_ne k st wid l rest hk, reportIds_cons, reportIds_cons]
      rw [List.count_append, List.count_append, ih]
      omega

theorem reportAdd_lookup_self (rep : List (String × List String))
    (st wid : String) :
    ∃ l, lookupA (reportAdd rep st wid) st = some l ∧ wid ∈ l := by
  induction rep with
  | nil => exact ⟨[wid], by simp [reportAdd, lookupA], by simp⟩
  | cons kv rest ih =>
    obtain ⟨k, l0⟩ := kv
    by_cases hk : k = st
    · refine ⟨l0 ++ [wid], ?_, by simp⟩
      rw [reportAdd_cons_eq k st wid l0 rest hk, lookupA_cons, if_pos hk]
    · obtain ⟨l, hl, hm⟩ := ih
      refine ⟨l, ?_, hm⟩
      rw [reportAdd_cons_ne k st wid l0 rest hk, lookupA_cons, if_neg hk, hl]

theorem reportAdd_lookup_mono (rep : List (String × List String))
    (st wid st0 wid0 : String) (l : List String)
    (hl : lookupA rep st = some l) (hm : wid ∈ l) :
    ∃ l2, lookupA (reportAdd rep st0 wid0) st = some l2 ∧ wid ∈ l2 := by
  induction rep with
  | nil => simp [lookupA] at hl
  | cons kv rest ih =>
    obtain ⟨k, l1⟩ := kv
    rw [lookupA_cons] at hl
    by_cases hk : k = st
    · rw [if_pos hk] at hl
      obtain rfl : l1 = l := Option.some.inj hl
      by_cases h0 : k = st0
      · refine ⟨l1 ++ [wid0], ?_, List.mem_append_left _ hm⟩
        rw [reportAdd_cons_eq k st0 wid0 l1 rest h0, lookupA_cons, if_pos hk]
      · refine ⟨l1, ?_, hm⟩
        rw [reportAdd_cons_ne k st0 wid0 l1 rest h0, lookupA_cons, if_pos hk]
    · rw [if_neg hk] at hl
      by_cases h0 : k = st0
      · refine ⟨l, ?_, hm⟩
        rw [reportAdd_cons_eq k st0 wid0 l1 rest h0, lookupA_cons, if_neg hk, hl]
      · obtain ⟨l2, hl2, hm2⟩ := ih hl
        refine ⟨l2, ?_, hm2⟩
        rw [reportAdd_cons_ne k st0 wid0 l1 rest h0, lookupA_cons, if_neg hk, hl2]

theorem reportAdd_mem_inv (rep : List (String × List String))
    (st0 wid0 st wid : String) (l : List String)
    (hl : (st, l) ∈ reportAdd rep st0 wid0) (hm : wid ∈ l) :
    (st = st0 ∧ wid = wid0) ∨ ∃ l0, (st, l0) ∈ rep ∧ wid ∈ l0 := by
  induction rep with
  | nil =>
    simp only [reportAdd, List.mem_singleton, Prod.mk.injEq] at hl
    obtain ⟨h1, h2⟩ := hl
    subst h1; subst h2
    simp only [List.mem_singleton] at hm
    exact Or.inl ⟨rfl, hm⟩
  | cons kv rest ih =>
    obtain ⟨k, l1⟩ := kv
    by_cases hk : k = st0
    · rw [reportAdd_cons_eq k st0 wid0 l1 rest hk] at hl
      rcases List.mem_cons.1 hl with h | h
      · obtain ⟨h1, h2⟩ := Prod.mk.inj h
        subst h2
        rcases List.mem_append.1 hm with hm1 | hm1
        · exact Or.inr ⟨l1, by simp [h1], hm1⟩
        · simp only [List.mem_singleton] at hm1
          exact Or.inl ⟨h1.trans hk, hm1⟩
      · exact Or.inr ⟨l, List.mem_cons_of_mem _ h, hm⟩
    · rw [reportAdd_cons_ne k st0 wid0 l1 rest hk] at hl
      rcases List.mem_cons.1 hl with h | h
      · exact Or.inr ⟨l, by simp [h], hm⟩
      · rcases ih h with h2 | ⟨l0, hl0, hm0⟩
        · exact Or.inl h2
        · exact Or.inr ⟨l0, List.mem_cons_of_mem _ hl0, hm0⟩

theorem exec_report_fold_count (wfs : Registry)
    (rep : List (String × List String)) (x : String) :
    (reportIds (wfs.foldl (fun r kv => reportAdd r kv.2.status kv.1) rep)).count x
      = (reportIds rep).count x + (wfs.map Prod.fst).count x := by
  induction wfs generalizing rep with
  | nil => simp
  | cons kv rest ih =>
    simp only [List.foldl_cons, ih, List.map_cons, List.count_cons,
      count_reportIds_reportAdd]
    by_cases hx : kv.1 = x <;> simp [hx] <;> omega

theorem exec_report_fold_mem (wfs : Registry)
    (rep : List (String × List String)) (st wid : String) (l : List String)
    (hl : lookupA rep st = some l) (hm : wid ∈ l) :
    ∃ l2, lookupA (wfs.foldl (fun r kv => reportAdd r kv.2.status kv.1) rep) st
        = some l2 ∧ wid ∈ l2 := by
  induction wfs generalizing rep l with
  | nil => exact ⟨l, hl, hm⟩
  | cons kv rest ih =>
    obtain ⟨l2, hl2, hm2⟩ := reportAdd_lookup_mono rep st wid kv.2.status kv.1 l hl hm
    exact ih _ _ hl2 hm2

theorem exec_report_fold_complete (wfs : Registry)
    (rep : List (String × List String)) (wid : String) (w : Wf)
    (hmem : (wid, w) ∈ wfs) :
    ∃ l, lookupA (wfs.foldl (fun r kv => reportAdd r kv.2.status kv.1) rep)
        w.status = some l ∧ wid ∈ l := by
  induction wfs generalizing rep with
  | nil => simp at hmem
  | cons kv rest ih =>
    rcases List.mem_cons.1 hmem with h | h
    · subst h
      obtain ⟨l, hl, hm⟩ := reportAdd_lookup_self rep w.status wid
      exact exec_report_fold_mem rest _ w.status wid l hl hm
    · exact ih _ h

theorem exec_report_fold_sound (wfs : Registry)
    (rep : List (String × List String)) (Q : String → String → Prop)
    (h0 : ∀ st l wid, (st, l) ∈ rep → wid ∈ l → Q st wid)
    (h1 : ∀ wid w, (wid, w) ∈ wfs → Q w.status wid) :
    ∀ st l wid,
      (st, l) ∈ wfs.foldl (fun r kv => reportAdd r kv.2.status kv.1) rep →
      wid ∈ l → Q st wid := by
  induction wfs generalizing rep with
  | nil => exact h0
  | cons kv rest ih =>
    refine ih _ ?_ (fun wid w hw => h1 wid w (List.mem_cons_of_mem _ hw))
    intro st l wid hl hm
    rcases reportAdd_mem_inv rep kv.2.status kv.1 st wid l hl hm with ⟨hst, hwid⟩ | ⟨l0, hl0, hm0⟩
    · subst hst; subst hwid
      exact h1 kv.1 kv.2 (List.mem_cons_self _ _)
    · exact h0 st l0 wid hl0 hm0

/-- C10: `_execution_report` partitions the registered workflow ids by
status: (1) counted with multiplicity, the ids in the report are exactly the
registered ids (so each id appears exactly once overall when the registry
keys are distinct); (2) every id listed under a status belongs to a
registered workflow having that status; (3) every registered workflow id
appears in the list keyed by its own current status. -/
theorem execution_report_partition (wfs : Registry) :
    (∀ x, (reportIds (execution_report wfs)).count x = (wfs.map Prod.fst).count x)
    ∧ (∀ st l wid, (st, l) ∈ execution_report wfs → wid ∈ l →
        ∃ w, (wid, w) ∈ wfs ∧ w.status = st)
    ∧ (∀ wid w, (wid, w) ∈ wfs →
        ∃ l, lookupA (execution_report wfs) w.status = some l ∧ wid ∈ l) := by
  refine ⟨fun x => ?_, fun st l wid hl hm => ?_, fun wid w hmem => ?_⟩
  · simpa [reportIds] using exec_report_fold_count wfs [] x
  · exact exec_report_fold_sound wfs []
      (fun st wid => ∃ w, (wid, w) ∈ wfs ∧ w.status = st)
      (by intro st l wid h; simp at h)
      (fun wid w hw => ⟨w, hw, rfl⟩) st l wid hl hm
  · exact exec_report_fold_complete wfs [] wid w hmem

/-- Witness for C10 at a concrete three-workflow registry. -/
theorem execution_report_partition_witness :
    ∃ l, lookupA (execution_report demoReg) demoWfRun.status = some l ∧ "wf-2" ∈ l :=
  (execution_report_partition demoReg).2.2 "wf-2" demoWfRun (by simp [demoReg])

/-- C4: the code ignores the `timeout` argument: with `timeout = 0` and a
path that only disappears after 10 seconds, `_delete_and_check` still
returns `True` (it polls against the hard-coded 300-second budget), while
the claim requires a deterministic `False` when absence is not reported
within `T = 0` seconds. -/
theorem delete_and_check_ignores_timeout :
    delete_and_check true (fun t => decide (t < 10)) 0 = .ok true ∧
    delete_and_check_spec true (fun t => decide (t < 10)) 0 = .ok false := by
  constructor <;> simp [delete_and_check, delete_and_check_spec, deleteCheckLoop]

theorem lookupA_update_workflows_removed (infoOr : String → Wf) (wfs : Registry)
    (wid : String) (w : Wf) (hw : w.status = "Removed")
    (hl : lookupA wfs wid = some w) :
    lookupA (update_workflows infoOr wfs) wid = some w := by
  induction wfs with
  | nil => simp [lookupA] at hl
  | cons kv rest ih =>
    obtain ⟨k, v⟩ := kv
    rw [lookupA_cons] at hl
    by_cases hk : k = wid
    · rw [if_pos hk] at hl
      obtain rfl : v = w := Option.some.inj hl
      simp only [update_workflows, List.map_cons, if_pos hw]
      rw [lookupA_cons, if_pos hk]
    · rw [if_neg hk] at hl
      simp only [update_workflows, List.map_cons]
      by_cases hv : v.status = "Removed" <;>
        simp only [if_pos, if_neg, hv, ite_true, ite_false] <;>
        rw [lookupA_cons, if_neg hk] <;>
        simpa [update_workflows] using ih hl

theorem wf_eta_removed (w : Wf) (hw : w.status = "Removed") :
    { w with status := "Removed" } = w := by
  rw [← hw]

theorem lookupA_cons_entry {α : Type} (kv : String × α) (rest : List (String × α))
    (key : String) :
    lookupA (kv :: rest) key = if kv.1 = key then some kv.2 else lookupA rest key := by
  obtain ⟨k, v⟩ := kv
  rfl

theorem finishEntry_key (existsOr : PathV → Bool) (kv : String × Wf) :
    (finishEntry existsOr kv).1 = kv.1 := by
  unfold finishEntry
  match kv.2.outputs with
  | [] => rfl
  | o :: _ =>
    by_cases he : existsOr o.path.parent <;> simp [he]

theorem finishEntry_removed (existsOr : PathV → Bool) (kv : String × Wf)
    (hv : kv.2.status = "Removed") :
    finishEntry existsOr kv = kv := by
  unfold finishEntry
  match kv.2.outputs with
  | [] => simp [wf_eta_removed kv.2 hv]
  | o :: _ =>
    by_cases he : existsOr o.path.parent <;> simp [he, wf_eta_removed kv.2 hv]

theorem lookupA_finish_mark_removed (existsOr : PathV → Bool) (wfs : Registry)
    (wid : String) (w : Wf) (hw : w.status = "Removed")
    (hl : lookupA wfs wid = some w) :
    lookupA (finish_mark_removed existsOr wfs) wid = some w := by
  induction wfs with
  | nil => simp [lookupA] at hl
  | cons kv rest ih =>
    rw [lookupA_cons_entry] at hl
    simp only [finish_mark_removed, List.map_cons]
    rw [lookupA_cons_entry, finishEntry_key]
    by_cases hk : kv.1 = wid
    · rw [if_pos hk] at hl ⊢
      obtain rfl : kv.2 = w := Option.some.inj hl
      rw [finishEntry_removed existsOr kv hw]
    · rw [if_neg hk] at hl ⊢
      simpa [finish_mark_removed] using ih hl

/-- C7: the "Removed" status is absorbing: a workflow record whose status is
"Removed" is returned unchanged (same status, same contents) by
`_update_workflows`, by any sequence of monitoring rounds, and by the
status-reclassification loop of `finish`. -/
theorem removed_status_absorbing (wid : String) (w : Wf) (hw : w.status = "Removed")
    (wfs : Registry) (infoOr : String → Wf) (rounds : List (String → Wf))
    (existsOr : PathV → Bool) (hl : lookupA wfs wid = some w) :
    lookupA (update_workflows infoOr wfs) wid = some w ∧
    lookupA (monitor_rounds rounds wfs) wid = some w ∧
    lookupA (finish_mark_removed existsOr wfs) wid = some w := by
  refine ⟨lookupA_update_workflows_removed infoOr wfs wid w hw hl, ?_,
    lookupA_finish_mark_removed existsOr wfs wid w hw hl⟩
  induction rounds generalizing wfs with
  | nil => exact hl
  | cons o rest ih =>
    exact ih _ (lookupA_update_workflows_removed o wfs wid w hw hl)

/-- Witness for C7: a concrete Removed record survives a refresh round, two
monitoring rounds and the finish reclassification untouched. -/
theorem removed_status_absorbing_witness :
    lookupA (update_workflows (fun _ => demoWfFin) demoRegRem) "wf-0" = some demoWfRem ∧
    lookupA (monitor_rounds [fun _ => demoWfFin, fun _ => demoWfRun] demoRegRem) "wf-0" = some demoWfRem ∧
    lookupA (finish_mark_removed (fun _ => false) demoRegRem) "wf-0" = some demoWfRem :=
  removed_status_absorbing "wf-0" demoWfRem rfl demoRegRem
    (fun _ => demoWfFin) [fun _ => demoWfFin, fun _ => demoWfRun]
    (fun _ => false) rfl

theorem setSessionName_conflict (s : LSession) (old nv : String)
    (h : s.session_name = some old) (hne : nv ≠ old) :
    setSessionName s nv = (s, some (.conflict "Session name is already set")) := by
  simp [setSessionName, h, hne]

theorem setSessionName_equal (s : LSession) (old : String)
    (h : s.session_name = some old) (hchk : check_session_name old = true) :
    setSessionName s old = (s, none) := by
  have he : { s with session_name := some old } = s := by rw [← h]
  simp [setSessionName, h, hchk, he]

theorem setPipelineId_conflict (pipelines : List String) (s : LSession)
    (old nv : String) (h : s.pipeline_id = some old) (hne : nv ≠ old) :
    setPipelineId pipelines s nv = (s, some (.conflict "Pipeline identifier is already set")) := by
  simp [setPipelineId, h, hne]

theorem setPipelineId_equal (pipelines : List String) (s : LSession) (old : String)
    (h : s.pipeline_id = some old) (hp : pipelines = [] ∨ old ∈ pipelines) :
    setPipelineId pipelines s old = (s, none) := by
  have he : { s with pipeline_id := some old } = s := by rw [← h]
  have hcond : ¬ (pipelines ≠ [] ∧ old ∉ pipelines) := by
    rcases hp with hp | hp <;> simp [hp]
  simp [setPipelineId, h, hcond, he]

theorem setVipOutputDir_conflict (s : LSession) (old nv : String)
    (h : s.vip_output_dir = some old) (hne : nv ≠ old) :
    setVipOutputDir s nv = (s, some (.conflict "Results directory is already set")) := by
  simp [setVipOutputDir, h, hne]

theorem setVipOutputDir_equal (s : LSession) (old : String)
    (h : s.vip_output_dir = some old) (hn : normalizePathStr old = old) :
    setVipOutputDir s old = (s, none) := by
  have he : { s with vip_output_dir := some old } = s := by rw [← h]
  simp [setVipOutputDir, h, hn, he]

theorem setInputSettings_conflict (s : LSession) (old nv : List (String × IVal))
    (h : s.input_settings = some old) (hne : ¬ dictEqA nv old = true) :
    setInputSettings s nv = (s, some (.conflict "Input settings are already set")) := by
  simp [setInputSettings, h, hne]

theorem setInputSettings_equal (s : LSession) (old : List (String × IVal))
    (h : s.input_settings = some old) (hd : dictEqA old old = true) :
    setInputSettings s old = (s, none) := by
  have he : { s with input_settings := some old } = s := by rw [← h]
  simp [setInputSettings, h, hd, he]

theorem setWorkflows_conflict (s : LSession) (old nv : Registry)
    (h : s.workflows = some old) (hne : ¬ dictEqA nv old = true) :
    setWorkflows s nv = (s, some (.conflict "Workflows inventory is already set")) := by
  simp [setWorkflows, h, hne]

theorem setWorkflows_equal (s : LSession) (old : Registry)
    (h : s.workflows = some old) (hd : dictEqA old old = true) :
    setWorkflows s old = (s, none) := by
  have he : { s with workflows := some old } = s := by rw [← h]
  simp [setWorkflows, h, hd, he]

/-- C8: each identity-bearing property is write-once-per-value.  For every
property (session_name, pipeline_id, vip_output_dir, input_settings,
workflows): once it is set, assigning a value different from the current
property value raises a conflict error and returns the session unchanged
(the raise happens before any assignment, so there is no partial mutation),
while re-assigning the property's current value succeeds and leaves the
session unchanged (for `pipeline_id` provided the validation environment
still accepts it; for `vip_output_dir` the stored value is already in
normalised string form; for the dictionary-valued properties dictionary
self-equality holds, i.e. keys are unique). -/
theorem write_once_properties :
    (∀ (s : LSession) (old nv : String), s.session_name = some old → nv ≠ old →
      setSessionName s nv = (s, some (.conflict "Session name is already set")))
    ∧ (∀ (s : LSession) (old : String), s.session_name = some old →
        check_session_name old = true → setSessionName s old = (s, none))
    ∧ (∀ (pipelines : List String) (s : LSession) (old nv : String),
        s.pipeline_id = some old → nv ≠ old →
        setPipelineId pipelines s nv = (s, some (.conflict "Pipeline identifier is already set")))
    ∧ (∀ (pipelines : List String) (s : LSession) (old : String),
        s.pipeline_id = some old → (pipelines = [] ∨ old ∈ pipelines) →
        setPipelineId pipelines s old = (s, none))
    ∧ (∀ (s : LSession) (old nv : String), s.vip_output_dir = some old → nv ≠ old →
        setVipOutputDir s nv = (s, some (.conflict "Results directory is already set")))
    ∧ (∀ (s : LSession) (old : String), s.vip_output_dir = some old →
        normalizePathStr old = old → setVipOutputDir s old = (s, none))
    ∧ (∀ (s : LSession) (old nv : List (String × IVal)), s.input_settings = some old →
        ¬ dictEqA nv old = true →
        setInputSettings s nv = (s, some (.conflict "Input settings are already set")))
    ∧ (∀ (s : LSession) (old : List (String × IVal)), s.input_settings = some old →
        dictEqA old old = true → setInputSettings s old = (s, none))
    ∧ (∀ (s : LSession) (old nv : Registry), s.workflows = some old →
        ¬ dictEqA nv old = true →
        setWorkflows s nv = (s, some (.conflict "Workflows inventory is already set")))
    ∧ (∀ (s : LSession) (old : Registry), s.workflows = some old →
        dictEqA old old = true → setWorkflows s old = (s, none)) :=
  ⟨setSessionName_conflict, setSessionName_equal, setPipelineId_conflict,
    setPipelineId_equal, setVipOutputDir_conflict, setVipOutputDir_equal,
    setInputSettings_conflict, setInputSettings_equal, setWorkflows_conflict,
    setWorkflows_equal⟩

/-- Witness for C8 on a concrete fully defined session: re-assigning the
current session name succeeds and changes nothing; assigning a different
pipeline identifier fails with a conflict and changes nothing. -/
theorem write_once_properties_witness :
    setSessionName demoSession "demo-1" = (demoSession, none) ∧
    setPipelineId [] demoSession "other/0.2"
      = (demoSession, some (.conflict "Pipeline identifier is already set")) :=
  ⟨write_once_properties.2.1 demoSession "demo-1" rfl (by decide),
    write_once_properties.2.2.1 [] demoSession "app/0.1" "other/0.2" rfl (by decide)⟩

theorem launch_exec_loop_partial (initOr : Nat → Option String)
    (infoOr : String → Option Wf) (k : Nat) :
    ∀ (i n : Nat) (wfs : Registry), k < n →
      (∀ j, j < k → ∃ wid inf, initOr (i + j) = some wid ∧ infoOr wid = some inf) →
      initOr (i + k) = none →
      launch_exec_loop initOr infoOr i n wfs
        = (applyRuns initOr infoOr i k wfs, k + 1, true) := by
  induction k with
  | zero =>
    intro i n wfs hkn hsucc hfail
    obtain ⟨m, rfl⟩ : ∃ m, n = m + 1 := ⟨n - 1, by omega⟩
    simp only [Nat.add_zero] at hfail
    simp [launch_exec_loop, applyRuns, hfail]
  | succ k ih =>
    intro i n wfs hkn hsucc hfail
    obtain ⟨m, rfl⟩ : ∃ m, n = m + 1 := ⟨n - 1, by omega⟩
    obtain ⟨wid, inf, hinit, hinfo⟩ := hsucc 0 (Nat.succ_pos k)
    rw [Nat.add_zero] at hinit
    have hrec := ih (i + 1) m (insertA wfs wid inf) (by omega)
      (fun j hj => by
        have h := hsucc (j + 1) (by omega)
        rwa [show i + (j + 1) = i + 1 + j by omega] at h)
      (by rwa [show i + 1 + k = i + (k + 1) by omega])
    have happ : applyRuns initOr infoOr i (k + 1) wfs
        = applyRuns initOr infoOr (i + 1) k (insertA wfs wid inf) := by
      simp [applyRuns, hinit, hinfo]
    simp [launch_exec_loop, hinit, hinfo, hrec, happ]

/-- C6: partial-launch preservation.  If the first `k` iterations of the
launch loop succeed and the `(k+1)`-st `_init_exec` call fails with a remote
error (`k < nb_runs`), then the loop stops after exactly `k + 1` start
requests (no further requests are issued), the error propagates, and the
registry equals the initial registry with exactly the `k` successfully
created workflow records applied, unchanged (no rollback). -/
theorem launch_pipeline_partial_preservation (initOr : Nat → Option String)
    (infoOr : String → Option Wf) (nbRuns k : Nat) (wfs : Registry)
    (hkn : k < nbRuns)
    (hsucc : ∀ j, j < k → ∃ wid inf, initOr j = some wid ∧ infoOr wid = some inf)
    (hfail : initOr k = none) :
    launch_exec_loop initOr infoOr 0 nbRuns wfs
      = (applyRuns initOr infoOr 0 k wfs, k + 1, true) :=
  launch_exec_loop_partial initOr infoOr k 0 nbRuns wfs hkn
    (fun j hj => by simpa using hsucc j hj) (by simpa using hfail)

/-- Witness for C6: two successful launches followed by a failure in a batch
of four requested runs keep both created records and issue only three start
requests. -/
theorem launch_pipeline_partial_preservation_witness :
    launch_exec_loop demoInitOr demoInfoOr 0 4 []
      = (applyRuns demoInitOr demoInfoOr 0 2 [], 3, true) :=
  launch_pipeline_partial_preservation demoInitOr demoInfoOr 4 2 [] (by omega)
    (fun j hj => by
      interval_cases j
      · exact ⟨"wf-0", demoWfRun, rfl, rfl⟩
      · exact ⟨"wf-1", demoWfRun, rfl, rfl⟩)
    rfl

theorem relTo_joinSegs (d : PathV) (rel : List String) :
    (d.joinSegs rel).relTo d = some { absolute := false, segs := rel } := by
  have hpre : d.segs.isPrefixOf (d.segs ++ rel) = true :=
    List.isPrefixOf_iff_prefix.2 (List.prefix_append _ _)
  simp [PathV.relTo, PathV.joinSegs, hpre, List.drop_left]

theorem foldl_normStep_clean (rel : List String)
    (hcl : ∀ s ∈ rel, s ≠ "." ∧ s ≠ "..") :
    ∀ acc, rel.foldl normStep acc = acc ++ rel := by
  induction rel with
  | nil => intro acc; simp
  | cons s rest ih =>
    intro acc
    obtain ⟨h1, h2⟩ := hcl s (List.mem_cons_self _ _)
    have hstep : normStep acc s = acc ++ [s] := by simp [normStep, h1, h2]
    rw [List.foldl_cons, hstep, ih (fun t ht => hcl t (List.mem_cons_of_mem _ ht))]
    simp

theorem normSegs_append_clean (l rel : List String)
    (hcl : ∀ s ∈ rel, s ≠ "." ∧ s ≠ "..") :
    normSegs (l ++ rel) = normSegs l ++ rel := by
  unfold normSegs
  rw [List.foldl_append]
  exact foldl_normStep_clean rel hcl _

theorem resolve_joinSegs (cwd ld : PathV) (rel : List String)
    (hcl : ∀ s ∈ rel, s ≠ "." ∧ s ≠ "..") :
    cwd.resolve (ld.joinSegs rel) = (cwd.resolve ld).joinSegs rel := by
  simp only [PathV.resolve, PathV.joinSegs, PathV.mk.injEq, true_and]
  rw [← List.append_assoc, normSegs_append_clean _ rel hcl]

/-- C3: path round-trip.  For a parameter value that is a path strictly under
its input root (a path `Root / rel` with non-empty `rel`), relativising the
settings with `_parse_input_settings` and materialising them against the same
root with `_get_input_settings` returns the original path (in string form,
which is how `_get_input_settings` returns every path).  First conjunct: a
path under the VIP input directory whose string form starts with the server
prefix, materialised with `target="vip"`.  Second conjunct: a path under the
local input directory (its string form not starting with the server prefix;
`rel` free of `.`/`..` so that `Path.resolve()` leaves it in place),
materialised with `target="local"`. -/
theorem input_path_round_trip :
    (∀ (pfx key : String) (d cwd : PathV) (localDir : Option PathV)
       (rel : List String), rel ≠ [] →
       strStartsWith pfx (d.joinSegs rel).pathStr = true →
       get_input_settings (some d) localDir "vip"
         (parse_input_settings pfx (some d) localDir cwd
           [(key, .path (d.joinSegs rel))])
         = .ok [(key, .str (d.joinSegs rel).pathStr)])
    ∧ (∀ (pfx key : String) (ld cwd : PathV) (vipDir : Option PathV)
       (rel : List String), rel ≠ [] →
       (∀ s ∈ rel, s ≠ "." ∧ s ≠ "..") →
       strStartsWith pfx (ld.joinSegs rel).pathStr = false →
       get_input_settings vipDir (some ld) "local"
         (parse_input_settings pfx vipDir (some ld) cwd
           [(key, .path (ld.joinSegs rel))])
         = .ok [(key, .str (ld.joinSegs rel).pathStr)]) := by
  constructor
  · intro pfx key d cwd localDir rel _ hpfx
    have hrel := relTo_joinSegs d rel
    simp only [PathV.joinSegs] at hpfx hrel ⊢
    simp [parse_input_settings, parseValue, parseScalarCore, hpfx, hrel,
      get_input_settings, getInput, PathV.joinP, PathV.joinSegs]
  · intro pfx key ld cwd vipDir rel _ hcl hpfx
    have hrel : (cwd.resolve (ld.joinSegs rel)).relTo (cwd.resolve ld)
        = some { absolute := false, segs := rel } := by
      rw [resolve_joinSegs cwd ld rel hcl]
      exact relTo_joinSegs (cwd.resolve ld) rel
    simp only [PathV.joinSegs] at hpfx hrel ⊢
    simp [parse_input_settings, parseValue, parseScalarCore, hpfx, hrel,
      get_input_settings, getInput, PathV.joinP, PathV.joinSegs]

/-- Witness for C3: a VIP path and a local path, each strictly under its
input root, round-trip through parse + materialise. -/
theorem input_path_round_trip_witness :
    get_input_settings (some demoVipIn) none "vip"
      (parse_input_settings "/vip" (some demoVipIn) none demoCwd
        [("f", .path (demoVipIn.joinSegs ["sub", "f.txt"]))])
      = .ok [("f", .str (demoVipIn.joinSegs ["sub", "f.txt"]).pathStr)] ∧
    get_input_settings none (some demoLocalIn) "local"
      (parse_input_settings "/vip" none (some demoLocalIn) demoCwd
        [("f", .path (demoLocalIn.joinSegs ["x.txt"]))])
      = .ok [("f", .str (demoLocalIn.joinSegs ["x.txt"]).pathStr)] :=
  ⟨input_path_round_trip.1 "/vip" "f" demoVipIn demoCwd none ["sub", "f.txt"]
      (by decide) (by decide),
    input_path_round_trip.2 "/vip" "f" demoLocalIn demoCwd none ["x.txt"]
      (by decide) (by decide) (by decide)⟩

theorem fsle_refl (fs : FS) : FSLE fs fs :=
  ⟨fun _ h => h, fun _ h => h⟩

theorem fsle_trans {a b c : FS} (h1 : FSLE a b) (h2 : FSLE b c) : FSLE a c :=
  ⟨fun p hp => h2.1 p (h1.1 p hp), fun p hp => h2.2 p (h1.2 p hp)⟩

theorem fsle_createDir (fs : FS) (p : PathV) : FSLE fs (fs.createDir p) :=
  ⟨fun q hq => List.mem_cons_of_mem _ hq, fun _ hq => hq⟩

theorem fsle_addFile (fs : FS) (p : PathV) : FSLE fs (fs.addFile p) :=
  ⟨fun _ hq => hq, fun q hq => List.mem_cons_of_mem _ hq⟩

theorem existsP_mono {fs fs' : FS} (h : FSLE fs fs') (p : PathV)
    (hp : fs.existsP p = true) : fs'.existsP p = true := by
  simp only [FS.existsP, Bool.or_eq_true, decide_eq_true_eq] at hp ⊢
  rcases hp with hp | hp
  · exact Or.inl (h.1 p hp)
  · exact Or.inr (h.2 p hp)

theorem mem_listNames_mono {fs fs' : FS} (h : FSLE fs fs') (p : PathV)
    (f : String) (hf : f ∈ fs.listNames p) : f ∈ fs'.listNames p := by
  simp only [FS.listNames, List.mem_filterMap, List.mem_append] at hf ⊢
  obtain ⟨q, hq, hcq⟩ := hf
  rcases hq with hq | hq
  · exact ⟨q, Or.inl (h.2 q hq), hcq⟩
  · exact ⟨q, Or.inr (h.1 q hq), hcq⟩

theorem childName_child (p : PathV) (f : String) :
    childName p (p.child f) = some f := by
  simp [childName, PathV.child, List.dropLast_concat, List.getLast?_concat]

theorem mem_listNames_of_file (fs : FS) (p : PathV) (f : String)
    (hf : p.child f ∈ fs.files) : f ∈ fs.listNames p := by
  simp only [FS.listNames, List.mem_filterMap, List.mem_append]
  exact ⟨p.child f, Or.inl hf, childName_child p f⟩

theorem fsle_mkdirs (fs : FS) (p : PathV) : FSLE fs (fs.mkdirs p).1 := by
  generalize hn : p.segs.length = n
  induction n using Nat.strong_induction_on generalizing fs p with
  | _ n ih =>
    rw [FS.mkdirs]
    by_cases hex : fs.existsP p = true
    · simp only [hex, ite_true]
      exact fsle_refl fs
    · simp only [hex, ite_false]
      match hp : p.segs with
      | [] => exact fsle_createDir fs p
      | a :: l =>
        refine fsle_trans (ih p.parent.segs.length ?_ fs p.parent rfl)
          (fsle_createDir _ p)
        subst hn
        simp only [PathV.parent, hp, List.length_dropLast, List.length_cons]
        omega

theorem mkdirs_existsP (fs : FS) (p : PathV) :
    ((fs.mkdirs p).1).existsP p = true := by
  rw [FS.mkdirs]
  by_cases hex : fs.existsP p = true
  · simpa [hex] using hex
  · simp only [hex, ite_false]
    match hp : p.segs with
    | [] => simp [FS.existsP, FS.createDir]
    | a :: l => simp [FS.existsP, FS.createDir]

theorem mkdirs_of_existsP (fs : FS) (p : PathV) (hex : fs.existsP p = true) :
    fs.mkdirs p = (fs, false) := by
  rw [FS.mkdirs]
  simp [hex]

theorem uploadFiles_mono (ok : PathV → Bool) (lp vp : PathV) :
    ∀ (files : List String) (fs : FS), FSLE fs (uploadFiles ok fs lp vp files).1 := by
  intro files
  induction files with
  | nil => intro fs; exact fsle_refl fs
  | cons f rest ih =>
    intro fs
    by_cases hf : ok (vp.child f) = true <;>
      simp only [uploadFiles, hf, ite_true, ite_false, Bool.false_eq_true]
    · exact fsle_trans (fsle_addFile fs (vp.child f)) (ih _)
    · exact ih fs

theorem uploadFiles_ok (ok : PathV → Bool) (hok : ∀ p, ok p = true)
    (lp vp : PathV) :
    ∀ (files : List String) (fs : FS),
      (uploadFiles ok fs lp vp files).2.1 = []
      ∧ ∀ f ∈ files, vp.child f ∈ (uploadFiles ok fs lp vp files).1.files := by
  intro files
  induction files with
  | nil =>
    intro fs
    exact ⟨rfl, by simp⟩
  | cons f rest ih =>
    intro fs
    simp only [uploadFiles, hok (vp.child f), ite_true]
    refine ⟨(ih (fs.addFile (vp.child f))).1, ?_⟩
    intro g hg
    rcases List.mem_cons.1 hg with rfl | hg
    · exact (uploadFiles_mono ok lp vp rest _).2 _ (by simp [FS.addFile])
    · exact (ih (fs.addFile (vp.child f))).2 g hg

mutual
theorem fsle_upload_dir (ok : PathV → Bool) (fs : FS) (lp : PathV) (t : LTree)
    (vp : PathV) : FSLE fs (upload_dir ok fs lp t vp).1 :=
  match t with
  | .node files subs =>
    fsle_trans (fsle_mkdirs fs vp)
      (fsle_trans (uploadFiles_mono ok lp vp _ (fs.mkdirs vp).1)
        (fsle_uploadForest ok _ lp subs vp))
theorem fsle_uploadForest (ok : PathV → Bool) (fs : FS) (lp : PathV)
    (subs : LForest) (vp : PathV) : FSLE fs (uploadForest ok fs lp subs vp).1 :=
  match subs with
  | .nil => fsle_refl fs
  | .cons name t rest =>
    fsle_trans (fsle_upload_dir ok fs (lp.child name) t (vp.child name))
      (fsle_uploadForest ok _ lp rest vp)
end

mutual
theorem syncedT_mono {fs fs' : FS} (h : FSLE fs fs') (t : LTree) (vp : PathV)
    (hs : SyncedT fs t vp) : SyncedT fs' t vp :=
  match t with
  | .node files subs =>
    ⟨existsP_mono h vp hs.1,
      fun f hf => mem_listNames_mono h vp f (hs.2.1 f hf),
      syncedF_mono h subs vp hs.2.2⟩
theorem syncedF_mono {fs fs' : FS} (h : FSLE fs fs') (subs : LForest) (vp : PathV)
    (hs : SyncedF fs subs vp) : SyncedF fs' subs vp :=
  match subs with
  | .nil => trivial
  | .cons name t rest =>
    ⟨syncedT_mono h t (vp.child name) hs.1, syncedF_mono h rest vp hs.2⟩
end

mutual
theorem upload_dir_synced (ok : PathV → Bool) (hok : ∀ p, ok p = true)
    (fs : FS) (lp : PathV) (t : LTree) (vp : PathV) :
    SyncedT (upload_dir ok fs lp t vp).1 t vp :=
  match t with
  | .node files subs => by
    simp only [upload_dir]
    set md := fs.mkdirs vp with hmd
    set toUpload : List String :=
      (if md.2 then files
       else files.filter (fun f => decide (f ∉ md.1.listNames vp))) with htu
    set up := uploadFiles ok md.1 lp vp toUpload with hup
    have hle1 : FSLE md.1 up.1 := by
      rw [hup]; exact uploadFiles_mono ok lp vp toUpload md.1
    have hle2 : FSLE up.1 (uploadForest ok up.1 lp subs vp).1 :=
      fsle_uploadForest ok up.1 lp subs vp
    have hex : (uploadForest ok up.1 lp subs vp).1.existsP vp = true :=
      existsP_mono hle2 vp (existsP_mono hle1 vp (mkdirs_existsP fs vp))
    refine ⟨hex, ?_, uploadForest_synced ok hok up.1 lp subs vp⟩
    intro f hf
    refine mem_listNames_mono hle2 vp f ?_
    by_cases hcr : md.2 = true
    · refine mem_listNames_of_file up.1 vp f ?_
      exact (uploadFiles_ok ok hok lp vp toUpload md.1).2 f (by simp [htu, hcr, hf])
    · by_cases hmem : f ∈ md.1.listNames vp
      · exact mem_listNames_mono hle1 vp f hmem
      · refine mem_listNames_of_file up.1 vp f ?_
        refine (uploadFiles_ok ok hok lp vp toUpload md.1).2 f ?_
        simp [htu, hcr, hf, List.mem_filter, hmem]
theorem uploadForest_synced (ok : PathV → Bool) (hok : ∀ p, ok p = true)
    (fs : FS) (lp : PathV) (subs : LForest) (vp : PathV) :
    SyncedF (uploadForest ok fs lp subs vp).1 subs vp :=
  match subs with
  | .nil => trivial
  | .cons name t rest => by
    simp only [uploadForest]
    refine ⟨?_, uploadForest_synced ok hok _ lp rest vp⟩
    exact syncedT_mono (fsle_uploadForest ok _ lp rest vp) t (vp.child name)
      (upload_dir_synced ok hok fs (lp.child name) t (vp.child name))
end

mutual
theorem upload_dir_noop (ok : PathV → Bool) (fs : FS) (lp : PathV) (t : LTree)
    (vp : PathV) (hs : SyncedT fs t vp) :
    upload_dir ok fs lp t vp = (fs, [], 0) :=
  match t with
  | .node files subs => by
    obtain ⟨hex, hfiles, hforest⟩ := hs
    have hmk : fs.mkdirs vp = (fs, false) := mkdirs_of_existsP fs vp hex
    have hfilter : files.filter (fun f => decide (f ∉ fs.listNames vp)) = [] := by
      rw [List.filter_eq_nil]
      intro f hf
      simp [hfiles f hf]
    simp only [upload_dir, hmk, hfilter]
    simp [uploadFiles, uploadForest_noop ok fs lp subs vp hforest]
theorem uploadForest_noop (ok : PathV → Bool) (fs : FS) (lp : PathV)
    (subs : LForest) (vp : PathV) (hs : SyncedF fs subs vp) :
    uploadForest ok fs lp subs vp = (fs, [], 0) :=
  match subs with
  | .nil => rfl
  | .cons name t rest => by
    obtain ⟨ht, hrest⟩ := hs
    simp only [uploadForest, upload_dir_noop ok fs (lp.child name) t (vp.child name) ht]
    simp [uploadForest_noop ok fs lp rest vp hrest]
end

/-- C2: idempotent directory synchronisation.  When uploads succeed (the
`vip.upload` backend returns `True`), running `_upload_dir(D, R)` a second
time against the remote state left by the first run performs zero
`_upload_file` calls, returns an empty failure list, and leaves the remote
state untouched. -/
theorem upload_dir_idempotent (ok : PathV → Bool) (hok : ∀ p, ok p = true)
    (fs : FS) (lp : PathV) (t : LTree) (vp : PathV) :
    upload_dir ok (upload_dir ok fs lp t vp).1 lp t vp
      = ((upload_dir ok fs lp t vp).1, [], 0) :=
  upload_dir_noop ok _ lp t vp (upload_dir_synced ok hok fs lp t vp)

/-- Witness for C2: syncing `{a.txt, b.txt, sub/c.txt}` onto an initially
empty remote twice: the second call uploads nothing and fails nothing. -/
theorem upload_dir_idempotent_witness :
    upload_dir (fun _ => true)
        (upload_dir (fun _ => true) { dirs := [], files := [] } demoLocalIn demoTree demoVipIn).1
        demoLocalIn demoTree demoVipIn
      = ((upload_dir (fun _ => true) { dirs := [], files := [] } demoLocalIn demoTree demoVipIn).1,
          [], 0) :=
  upload_dir_idempotent (fun _ => true) (fun _ => rfl)
    { dirs := [], files := [] } demoLocalIn demoTree demoVipIn

/-- C5 counterexample: at a concrete session holding one Removed workflow,
`download_outputs(get_status=["Removed"])` does not complete with a status
report: after the workflow refresh, line 474 calls
`self._execution_report(display=False)` although `_execution_report`
(VipLauncher.py:832) accepts only `verbose`, so the call ends in a
`TypeError` — before the line-477 assertion and before any download —
rather than "only reporting the status of the Removed workflows" as the
claim states. -/
theorem download_removed_raises :
    (download_outputs (fun _ => demoWfFin) (fun _ => false) (fun _ => false)
        demoOutDirC1 demoVipIn demoRegRem ["Removed"]).outcome
      = .error "TypeError: unexpected keyword argument display" := by
  rfl

/-- C5 (amended): calling `download_outputs` with `"Removed"` among the
target statuses never invokes the file-download backend operation, but it
does not report the Removed workflows either: whenever the session has any
workflow, the call fails with `TypeError` at the
`self._execution_report(display=False)` call of VipSession.py:474
(`_execution_report` has no `display` parameter), before the
`"Cannot download removed data."` assertion on line 477 is even reached;
with an empty workflow inventory the method returns early, also downloading
nothing. -/
theorem download_outputs_removed_disallowed (infoOr : String → Wf)
    (existsLoc dlOk : PathV → Bool) (localOut vipOut : PathV) (wfs : Registry)
    (getStatus : List String) (hrem : "Removed" ∈ getStatus) :
    (download_outputs infoOr existsLoc dlOk localOut vipOut wfs getStatus).trace = []
    ∧ (wfs ≠ [] →
        (download_outputs infoOr existsLoc dlOk localOut vipOut wfs getStatus).outcome
          = .error "TypeError: unexpected keyword argument display")
    ∧ (wfs = [] →
        (download_outputs infoOr existsLoc dlOk localOut vipOut wfs
          getStatus).outcome = .ok []) := by
  by_cases hw : wfs = []
  · subst hw
    exact ⟨rfl, fun h => absurd rfl h, fun _ => rfl⟩
  · refine ⟨?_, fun _ => ?_, fun h => absurd h hw⟩ <;>
      simp [download_outputs, hw]

/-- Witness for C5 at the concrete one-Removed-workflow session. -/
theorem download_outputs_removed_disallowed_witness :
    (download_outputs (fun _ => demoWfFin) (fun _ => false) (fun _ => false)
        demoOutDirC1 demoVipIn demoRegRem ["Removed"]).trace = []
    ∧ (download_outputs (fun _ => demoWfFin) (fun _ => false) (fun _ => false)
        demoOutDirC1 demoVipIn demoRegRem ["Removed"]).outcome
      = .error "TypeError: unexpected keyword argument display" :=
  have h := download_outputs_removed_disallowed (fun _ => demoWfFin)
    (fun _ => false) (fun _ => false) demoOutDirC1 demoVipIn demoRegRem
    ["Removed"] (by decide)
  ⟨h.1, h.2.1 (by decide)⟩

/-- C9: evaluation of `_extract_tarball` at a failing extraction.  With the
downloaded archive at `/out/res.tgz` and an extraction that fails, the
function does NOT restore the archive at its original path: the restoring
`os.rename(archive, local_file)` raises `IsADirectoryError` because the
function itself created a directory at `local_file`, and the on-disk state
keeps the archive under the temporary name `tmp.tgz` with an (empty or
partial) directory at the original path.  The claim says the original
archive is restored at its original path on extraction failure. -/
theorem mkdirs_one_level (fs : FS) (p : PathV) (h1 : fs.existsP p = false)
    (h2 : fs.existsP p.parent = true) :
    fs.mkdirs p = (fs.createDir p, true) := by
  rw [FS.mkdirs, h1]
  simp only [Bool.false_eq_true, if_false]
  split
  · rfl
  · rw [mkdirs_of_existsP fs p.parent h2]

theorem extract_tarball_failure_not_restored :
    (extract_tarball false [] demoFsTar demoTarFile).2.1 = some "IsADirectoryError"
    ∧ demoTmpFile ∈ (extract_tarball false [] demoFsTar demoTarFile).1.files
    ∧ demoTarFile ∈ (extract_tarball false [] demoFsTar demoTarFile).1.dirs
    ∧ demoTarFile ∉ (extract_tarball false [] demoFsTar demoTarFile).1.files := by
  have h1 : osRename demoFsTar demoTarFile (demoTarFile.parent.child "tmp.tgz")
      = .ok demoFsA := by rfl
  have h2 : demoFsA.mkdirs demoTarFile = (demoFsA.createDir demoTarFile, true) :=
    mkdirs_one_level demoFsA demoTarFile (by decide) (by decide)
  have h3 : osRename (demoFsA.createDir demoTarFile)
      (demoTarFile.parent.child "tmp.tgz") demoTarFile
      = .error "IsADirectoryError" := by rfl
  have heval : extract_tarball false [] demoFsTar demoTarFile
      = (demoFsA.createDir demoTarFile, some "IsADirectoryError", false) := by
    simp only [extract_tarball, h1, h2, List.foldl_nil, h3, Bool.false_eq_true,
      if_false]
  rw [heval]
  exact ⟨rfl, by decide, by decide, by decide⟩

/-- C1: evaluation of the persistence round trip at a concrete session.
First conjunct: `_save_session` followed by `_load_session` on the same
name/output directory does return the saved property set (`pipeline_id`
included) — the JSON document round-trips at the data level.  Second
conjunct: nevertheless, constructing a new session with the same name and
output directory loses the saved properties: `VipSession.__init__` only
tests the `_load_session` result for truthiness and never assigns the
loaded dictionary, so the resumed session has no `pipeline_id`.  Hence
`load(save(S)) ≠ S` as the constructor actually behaves. -/
theorem session_resume_loses_properties :
    (load_session (save_session [] (some demoOutDirC1) demoSaved).1
        (some demoOutDirC1)).map (fun d => d.pipeline_id)
      = some (some "demo/0.1")
    ∧ (vip_session_init (save_session [] (some demoOutDirC1) demoSaved).1
        "test" none none none (some demoOutDirC1)).pipeline_id = none := by
  constructor <;> rfl
